import Mathlib

/-!
Verification of the geo-referenced spectral lookup pipeline of the
titan-rt-teaching-tool repository: a shallow embedding of the geo-cube
decoder, the angle matcher, the spectral index resolver, the spectral
sampler and the clickable-image coordinate mapper, together with proofs
of the specified properties.

Numeric conventions: JavaScript numbers that carry measurement values
(wavelengths, angles, pixel positions) are modelled as rationals; the
claims under study do not hinge on binary floating-point rounding.
Byte buffers are lists of naturals; a decoded 32-bit little-endian slot
is modelled by its (injective) word value, leaving the IEEE-754 bit
reinterpretation abstract.
-/

/-! ### Geo-cube decoder (geoCubeLoader: parseGeoCube, getGeoValue, extractGeoValues) -/

/-- Geo cube shape constant: 9 bands (source: `const numBands = 9`). -/
def numBands : ℕ := 9

/-- Geo cube shape constant: 681 lines (source: `const numLines = 681`). -/
def numLines : ℕ := 681

/-- Geo cube shape constant: 681 samples (source: `const numSamples = 681`). -/
def numSamples : ℕ := 681

/-- `view.getFloat32(offset, true)`: reads the 4 bytes at `offset`,
little-endian.  A read past the end of the buffer throws a range error in
the DataView API, modelled here by `none`.  The decoded float is modelled
by its 32-bit word value (the IEEE-754 reinterpretation is injective and
irrelevant to the properties below). -/
def getFloat32LE (buffer : List ℕ) (offset : ℕ) : Option ℕ :=
  if offset + 4 ≤ buffer.length then
    some (buffer.getD offset 0 + 256 * buffer.getD (offset + 1) 0 +
      65536 * buffer.getD (offset + 2) 0 + 16777216 * buffer.getD (offset + 3) 0)
  else
    none

/-- The read loop of `parseGeoCube`:
`for (let i = 0; i < totalElements; i++) data[i] = view.getFloat32(i * 4, true)`.
`readFloats buffer n i` reads elements `i, i+1, …, i+n-1`; any failed read
aborts the whole decode (the thrown range error propagates, so no partial
result is produced). -/
def readFloats (buffer : List ℕ) : ℕ → ℕ → Option (List ℕ)
  | 0, _ => some []
  | n + 1, i =>
    match getFloat32LE buffer (i * 4), readFloats buffer n (i + 1) with
    | some v, some vs => some (v :: vs)
    | _, _ => none

/-- `parseGeoCube(buffer)`: decodes `numBands * numLines * numSamples`
little-endian 32-bit slots sequentially from the buffer.  The source
performs no explicit length validation. -/
def parseGeoCube (buffer : List ℕ) : Option (List ℕ) :=
  readFloats buffer (numBands * numLines * numSamples) 0

/-- A parsed geo cube as consumed by `getGeoValue`: models a
`Float32Array` (indexed access plus a `length`), with the stored floats
as rationals. -/
structure GeoCubeData where
  data : ℕ → ℚ
  size : ℕ

/-- The flat index computed by `getGeoValue`: clamps `x` to `[0, 680]`,
`y` to `[0, 680]`, `band` to `[0, 8]` (each via `Math.max(0, Math.min(Math.floor(v), dim - 1))`)
and returns `band * 681 * 681 + y * 681 + x`. -/
def geoIndex (x y band : ℚ) : ℤ :=
  let clampedX : ℤ := max 0 (min ⌊x⌋ 680)
  let clampedY : ℤ := max 0 (min ⌊y⌋ 680)
  let clampedBand : ℤ := max 0 (min ⌊band⌋ 8)
  clampedBand * (681 * 681) + clampedY * 681 + clampedX

/-- `getGeoValue(geoCubeData, x, y, band)`: clamps the coordinates,
computes the flat index, and returns `null` (here `none`) if the index is
outside the actual array length, else the stored value. -/
def getGeoValue (g : GeoCubeData) (x y band : ℚ) : Option ℚ :=
  let index := geoIndex x y band
  if index < 0 ∨ (g.size : ℤ) ≤ index then none else some (g.data index.toNat)

/-- The record built by `extractGeoValues`: the five extracted geometry
values (each possibly `null`) together with the echoed coordinates. -/
structure GeoValues where
  lat : Option ℚ
  lon : Option ℚ
  phase : Option ℚ
  incidence : Option ℚ
  emis : Option ℚ
  x : ℚ
  y : ℚ
deriving DecidableEq

/-- The pure core of `extractGeoValues` (after the cube has been loaded and
parsed): reads layers 0 (lat), 1 (lon), 4 (phase), 5 (incidence) and
6 (emis) at `(x, y)` and packages them; a `null` from any single
`getGeoValue` call stays `null` in that field only. -/
def extractGeoValues (g : GeoCubeData) (x y : ℚ) : GeoValues :=
  { lat := getGeoValue g x y 0
    lon := getGeoValue g x y 1
    phase := getGeoValue g x y 4
    incidence := getGeoValue g x y 5
    emis := getGeoValue g x y 6
    x := x
    y := y }

/-! ### Angle matcher (dataProcessor: findClosestAngleIndex) -/

/-- `angleArray.findIndex(angle => Math.abs(angle - targetAngle) < 1e-6)`:
first index within the exact-match tolerance, else `none` (JS `-1`). -/
def findExactMatchIndex (targetAngle : ℚ) : List ℚ → Option ℕ
  | [] => none
  | a :: rest =>
    if |a - targetAngle| < 1 / 1000000 then some 0
    else (findExactMatchIndex targetAngle rest).map (· + 1)

/-- The closest-match scan of `findClosestAngleIndex`: walks the
remaining angles (which start at position `i`), keeping the earliest
index `closestIndex` whose difference `minDiff` is minimal; the update
fires only on a strictly smaller difference. -/
def findClosestAux (targetAngle : ℚ) : List ℚ → ℕ → ℚ → ℕ → ℕ
  | [], _, _, closestIndex => closestIndex
  | a :: rest, i, minDiff, closestIndex =>
    if |a - targetAngle| < minDiff then
      findClosestAux targetAngle rest (i + 1) |a - targetAngle| i
    else
      findClosestAux targetAngle rest (i + 1) minDiff closestIndex

/-- `findClosestAngleIndex(angleArray, targetAngle)`: returns `0` for an
empty array, else the first exact match (tolerance `1e-6`) if one
exists, else the linear minimum-absolute-difference scan started from
index 0. -/
def findClosestAngleIndex : List ℚ → ℚ → ℕ
  | [], _ => 0
  | a0 :: rest, targetAngle =>
    match findExactMatchIndex targetAngle (a0 :: rest) with
    | some exactIndex => exactIndex
    | none => findClosestAux targetAngle rest 1 |a0 - targetAngle| 0

/-! ### Spectral sampler (largeDataHandler: sampleData) -/

/-- `[...new Set(arr)]`: the distinct values of a list in order of first
occurrence (`seen` accumulates the values already emitted). -/
def uniqueValues (seen : List ℚ) : List ℚ → List ℚ
  | [] => []
  | a :: rest =>
    if a ∈ seen then uniqueValues seen rest else a :: uniqueValues (a :: seen) rest

/-- The index set visited by `for (let i = 0; i < len; i += step)` for a
positive `step`: exactly the multiples of `step` below `len`, in
increasing order. -/
def stepIndices (len step : ℕ) : List ℕ :=
  (List.range len).filter (fun i => decide (i % step = 0))

/-- `const step = Math.max(1, Math.floor(wavelength.length / maxPoints))`.
`maxPoints` is a positive point budget (the callers in the source pass 100,
the default); for positive `maxPoints`, `Math.floor` division on these
naturals is `Nat` division. -/
def sampleStep (len maxPoints : ℕ) : ℕ :=
  max 1 (len / maxPoints)

/-- The sampling loop `for (let i = 0; i < l.length; i += step) out.push(l[i])`:
keeps the entries of `l` at the multiples of `step`. -/
def stepSample (step : ℕ) (l : List ℚ) : List ℚ :=
  (stepIndices l.length step).map (fun i => l.getD i 0)

/-- The spectral library structure handled by `sampleData` and
`createSpectralPlotData`: a wavelength axis, three angle axes and three
per-case tables of spectra. -/
structure SpectralData where
  wavelength : List ℚ
  inc : List ℚ
  emi : List ℚ
  daz : List ℚ
  standard : List (List ℚ)
  no_ch4 : List (List ℚ)
  no_haze : List (List ℚ)
deriving DecidableEq

/-- `sampleData(data, maxPoints)`: samples the wavelength axis with the
computed step, appends the final original wavelength when the sampled
count is still below `maxPoints` (and the source is non-empty), samples
every row of every case table with the same step (each row over its own
length, as in `sampleSpectralArray`), and reduces the angle axes to
their distinct values. -/
def sampleData (data : SpectralData) (maxPoints : ℕ) : SpectralData :=
  let len := data.wavelength.length
  let step := sampleStep len maxPoints
  let sampledWavelength := stepSample step data.wavelength
  let finalWavelength :=
    if sampledWavelength.length < maxPoints ∧ 0 < len then
      sampledWavelength ++ [data.wavelength.getD (len - 1) 0]
    else
      sampledWavelength
  { wavelength := finalWavelength
    inc := uniqueValues [] data.inc
    emi := uniqueValues [] data.emi
    daz := uniqueValues [] data.daz
    standard := data.standard.map (stepSample step)
    no_ch4 := data.no_ch4.map (stepSample step)
    no_haze := data.no_haze.map (stepSample step) }

/-! ### Spectral index resolver (dataProcessor: createSpectralPlotData) -/

/-- The flat spectrum index computed in `createSpectralPlotData`:
the three angle matcher results combined as
`incidenceIndex * emissionLength * azimuthLength + emissionIndex * azimuthLength + azimuthIndex`. -/
def angleIndexOf (pd : SpectralData) (incidenceAngle emissionAngle azimuthAngle : ℚ) : ℕ :=
  let incidenceIndex := findClosestAngleIndex pd.inc incidenceAngle
  let emissionIndex := findClosestAngleIndex pd.emi emissionAngle
  let azimuthIndex := findClosestAngleIndex pd.daz azimuthAngle
  incidenceIndex * (pd.emi.length * pd.daz.length) + emissionIndex * pd.daz.length + azimuthIndex

/-- The `switch (caseType)` of `createSpectralPlotData`: picks the row
`angleIndex` of the table named by `caseType` (default branch:
`standard`); a missing row (`undefined`, i.e. index out of range) falls
back to the empty array. -/
def selectCase (standard no_ch4 no_haze : List (List ℚ)) (caseType : String)
    (angleIndex : ℕ) : List ℚ :=
  if caseType = "standard" then standard.getD angleIndex []
  else if caseType = "no_ch4" then no_ch4.getD angleIndex []
  else if caseType = "no_haze" then no_haze.getD angleIndex []
  else standard.getD angleIndex []

/-- `wavelength.map((w, i) => ({wavelength: w, intensity: spectralValues[i] || 0}))`:
pairs each wavelength with the spectral value at the same position,
defaulting to 0 where the row has no entry. -/
def plotRows (spectralValues : List ℚ) : List ℚ → ℕ → List (ℚ × ℚ)
  | [], _ => []
  | w :: ws, i => (w, spectralValues.getD i 0) :: plotRows spectralValues ws (i + 1)

/-- `createSpectralPlotData(processedData, incidenceAngle, emissionAngle, azimuthAngle, caseType)`:
matches the three requested angles against the angle axes, computes the
flat spectrum index, selects the case row (empty when absent) and builds
the wavelength/intensity pairs. -/
def createSpectralPlotData (pd : SpectralData)
    (incidenceAngle emissionAngle azimuthAngle : ℚ) (caseType : String) : List (ℚ × ℚ) :=
  let angleIndex := angleIndexOf pd incidenceAngle emissionAngle azimuthAngle
  let spectralValues := selectCase pd.standard pd.no_ch4 pd.no_haze caseType angleIndex
  plotRows spectralValues pd.wavelength 0

/-! ### Coordinate mapper (ClickableImage: handleImageClick) -/

/-- The marker state of `ClickableImage`: display coordinates for the
overlay and clamped native coordinates for data lookup. -/
structure Marker where
  displayX : ℚ
  displayY : ℚ
  naturalX : ℤ
  naturalY : ℤ
deriving DecidableEq

/-- The toggle test `clickPosition && Math.abs(clickPosition.displayX - relativeX) < 10 &&
Math.abs(clickPosition.displayY - relativeY) < 10`: true exactly when a
marker exists and the new relative position is within 10 display pixels
of it on both axes. -/
def isToggleClick (clickPosition : Option Marker) (relativeX relativeY : ℚ) : Bool :=
  match clickPosition with
  | some pos =>
    decide (|pos.displayX - relativeX| < 10) && decide (|pos.displayY - relativeY| < 10)
  | none => false

/-- `handleImageClick`: computes the click position relative to the
image, ignores clicks outside `[0, offsetWidth] × [0, offsetHeight]`
(the marker state is left unchanged), otherwise scales by
`natural/offset` per axis, rounds (`Math.round` is `round` on ℚ), clamps
to `[0, naturalDim - 1]`, and either clears an existing marker closer
than 10 display pixels on both axes or stores the new marker.  Display
dimensions are positive whenever a rendered image receives clicks (the
component measures a loaded image). -/
def handleImageClick (naturalWidth naturalHeight offsetWidth offsetHeight : ℕ)
    (clickPosition : Option Marker)
    (clientX clientY rectLeft rectTop imgRectLeft imgRectTop : ℚ) : Option Marker :=
  let clickX := clientX - rectLeft
  let clickY := clientY - rectTop
  let imgLeft := imgRectLeft - rectLeft
  let imgTop := imgRectTop - rectTop
  let relativeX := clickX - imgLeft
  let relativeY := clickY - imgTop
  if 0 ≤ relativeX ∧ relativeX ≤ (offsetWidth : ℚ) ∧
      0 ≤ relativeY ∧ relativeY ≤ (offsetHeight : ℚ) then
    let scaleX : ℚ := (naturalWidth : ℚ) / (offsetWidth : ℚ)
    let scaleY : ℚ := (naturalHeight : ℚ) / (offsetHeight : ℚ)
    let naturalX : ℤ := round (relativeX * scaleX)
    let naturalY : ℤ := round (relativeY * scaleY)
    let clampedX : ℤ := max 0 (min naturalX ((naturalWidth : ℤ) - 1))
    let clampedY : ℤ := max 0 (min naturalY ((naturalHeight : ℤ) - 1))
    if isToggleClick clickPosition relativeX relativeY then
      none
    else
      some ⟨relativeX, relativeY, clampedX, clampedY⟩
  else
    clickPosition

/-! ### Concrete inputs used by the theorems below -/

/-- The incidence and emission angle grid of the worked example. -/
def angleGrid4 : List ℚ := [0, 30, 60, 90]

/-- The 12-value azimuth grid `[0, 30, …, 330]` of the worked example. -/
def azimuthGrid12 : List ℚ := [0, 30, 60, 90, 120, 150, 180, 210, 240, 270, 300, 330]

/-- A library with the example angle grids, a single wavelength and a
single-row standard table. -/
def spectralPlotExample : SpectralData :=
  { wavelength := [1]
    inc := angleGrid4
    emi := angleGrid4
    daz := azimuthGrid12
    standard := [[5]]
    no_ch4 := []
    no_haze := [] }

/-- A 12-wavelength library (wavelength values equal to their positions,
so retained values read off retained positions). -/
def library12 : SpectralData :=
  { wavelength := [0, 1, 2, 3, 4, 5, 6, 7, 8, 9, 10, 11]
    inc := []
    emi := []
    daz := []
    standard := []
    no_ch4 := []
    no_haze := [] }

/-- A 3-wavelength library with one aligned standard row (each row as
long as the wavelength axis). -/
def shortLibrary : SpectralData :=
  { wavelength := [1, 2, 3]
    inc := []
    emi := []
    daz := []
    standard := [[10, 20, 30]]
    no_ch4 := []
    no_haze := [] }

/-- A 2-wavelength library with one aligned standard row. -/
def alignedLibrary : SpectralData :=
  { wavelength := [1, 2]
    inc := []
    emi := []
    daz := []
    standard := [[5, 6]]
    no_ch4 := []
    no_haze := [] }

/-- A full-size all-zero geo cube (9 · 681 · 681 elements). -/
def fullCube : GeoCubeData :=
  { data := fun _ => 0, size := 4173849 }

/-- A full-size geo cube that differs from `fullCube` exactly at the
band-7 (azimuth) cell of pixel (0, 0), flat index 7 · 681 · 681 = 3246327. -/
def band7Cube : GeoCubeData :=
  { data := fun i => if i = 3246327 then 99 else 0, size := 4173849 }

/-- A geo cube truncated right at the band-6 cell of pixel (0, 0)
(flat index 6 · 681 · 681 = 2782566), so the emission lookup at (0, 0)
is out of range while lower bands are in range. -/
def truncatedCube : GeoCubeData :=
  { data := fun _ => 0, size := 2782566 }

/-! ### Helper lemmas -/

/- The Batteries rational arithmetic operations are `@[irreducible]` by
default; concrete evaluations below re-enable their definitional
unfolding so that `decide` can compute with rational literals. -/
attribute [local semireducible] Rat.add Rat.sub Rat.mul Rat.inv

theorem getFloat32LE_isSome (buffer : List ℕ) (offset : ℕ) :
    (getFloat32LE buffer offset).isSome = true ↔ offset + 4 ≤ buffer.length := by
  unfold getFloat32LE
  split <;> simp_all

theorem readFloats_isSome (buffer : List ℕ) :
    ∀ n i : ℕ, (readFloats buffer n i).isSome = true ↔
      (n = 0 ∨ (i + n) * 4 ≤ buffer.length) := by
  intro n
  induction n with
  | zero => intro i; simp [readFloats]
  | succ m ih =>
    intro i
    have h1 := getFloat32LE_isSome buffer (i * 4)
    have h2 := ih (i + 1)
    unfold readFloats
    constructor
    · intro h
      rcases hv : getFloat32LE buffer (i * 4) with _ | v
      · rw [hv] at h; simp at h
      · rcases hr : readFloats buffer m (i + 1) with _ | vs
        · rw [hv, hr] at h; simp at h
        · have hb : i * 4 + 4 ≤ buffer.length := h1.mp (by rw [hv]; rfl)
          have hm : m = 0 ∨ (i + 1 + m) * 4 ≤ buffer.length := h2.mp (by rw [hr]; rfl)
          right
          omega
    · intro h
      have hlen : (i + (m + 1)) * 4 ≤ buffer.length := by omega
      have hb : i * 4 + 4 ≤ buffer.length := by omega
      have hm : m = 0 ∨ (i + 1 + m) * 4 ≤ buffer.length := by omega
      rcases hv : getFloat32LE buffer (i * 4) with _ | v
      · exact absurd (h1.mpr hb) (by rw [hv]; simp)
      · rcases hr : readFloats buffer m (i + 1) with _ | vs
        · exact absurd (h2.mpr hm) (by rw [hr]; simp)
        · simp

/-! ### C1 — geo-cube decode and buffer length -/

/-- C1 (counterexample): a buffer whose length is 16,695,400 ≠ 16,695,396
bytes decodes successfully, so decoding does not fail for every
wrong-length buffer. -/
theorem parseGeoCube_overlong_decodes :
    (parseGeoCube (List.replicate 16695400 0)).isSome = true ∧
      (List.replicate 16695400 (0 : ℕ)).length ≠ 16695396 := by
  constructor
  · rw [parseGeoCube, readFloats_isSome]
    right
    rw [List.length_replicate]
    norm_num [numBands, numLines, numSamples]
  · rw [List.length_replicate]; norm_num

/-- C1 (amended): decoding fails — producing no partial geo cube, since
the failed 4-byte read aborts the whole decode — exactly when the buffer
is shorter than 9 · 681 · 681 · 4 = 16,695,396 bytes; any buffer of at
least that length (including over-long ones) decodes successfully, and no
dedicated wrong-length check exists. -/
theorem parseGeoCube_none_iff_short (buffer : List ℕ) :
    parseGeoCube buffer = none ↔ buffer.length < 16695396 := by
  have h := readFloats_isSome buffer (numBands * numLines * numSamples) 0
  rw [parseGeoCube]
  constructor
  · intro hn
    by_contra hlen
    have : (readFloats buffer (numBands * numLines * numSamples) 0).isSome = true := by
      rw [h]
      right
      norm_num [numBands, numLines, numSamples]
      omega
    rw [hn] at this
    simp at this
  · intro hlen
    rcases hr : readFloats buffer (numBands * numLines * numSamples) 0 with _ | vs
    · rfl
    · have : (readFloats buffer (numBands * numLines * numSamples) 0).isSome = true := by
        rw [hr]; rfl
      rw [h] at this
      rcases this with h0 | hb
      · norm_num [numBands, numLines, numSamples] at h0
      · norm_num [numBands, numLines, numSamples] at hb
        omega

/-! ### C6 — angle matcher on an empty array -/

/-- C6 (counterexample): on the empty angle array the matcher returns
index 0 — a concrete successful result at a concrete input, where the
claim demands a failure. -/
theorem findClosestAngleIndex_empty_cex : findClosestAngleIndex [] (5 : ℚ) = 0 := rfl

/-- C6 (amended): `findClosestAngleIndex` applied to an empty angle
array silently returns index 0 for every target; the function is total
and raises no error. -/
theorem findClosestAngleIndex_empty (targetAngle : ℚ) :
    findClosestAngleIndex [] targetAngle = 0 := rfl

/-! ### C7 — angle matcher algorithm -/

theorem findExactMatchIndex_some (targetAngle : ℚ) :
    ∀ (l : List ℚ) (i : ℕ), findExactMatchIndex targetAngle l = some i →
      i < l.length ∧ |l.getD i 0 - targetAngle| < 1 / 1000000 ∧
        ∀ j, j < i → ¬(|l.getD j 0 - targetAngle| < 1 / 1000000) := by
  intro l
  induction l with
  | nil => intro i h; simp [findExactMatchIndex] at h
  | cons a rest ih =>
    intro i h
    unfold findExactMatchIndex at h
    by_cases ha : |a - targetAngle| < 1 / 1000000
    · rw [if_pos ha] at h
      cases h
      refine ⟨by simp, by simpa using ha, ?_⟩
      intro j hj
      omega
    · rw [if_neg ha] at h
      rcases hr : findExactMatchIndex targetAngle rest with _ | i0
      · rw [hr] at h; simp at h
      · rw [hr] at h
        simp at h
        obtain ⟨h1, h2, h3⟩ := ih i0 hr
        subst h
        refine ⟨by simpa using h1, by simpa using h2, ?_⟩
        intro j hj
        cases j with
        | zero => simpa using ha
        | succ j0 =>
          have := h3 j0 (by omega)
          simpa using this

theorem findExactMatchIndex_none (targetAngle : ℚ) :
    ∀ l : List ℚ, findExactMatchIndex targetAngle l = none →
      ∀ j, j < l.length → ¬(|l.getD j 0 - targetAngle| < 1 / 1000000) := by
  intro l
  induction l with
  | nil => intro _ j hj; simp at hj
  | cons a rest ih =>
    intro h j hj
    unfold findExactMatchIndex at h
    by_cases ha : |a - targetAngle| < 1 / 1000000
    · rw [if_pos ha] at h; simp at h
    · rw [if_neg ha] at h
      rcases hr : findExactMatchIndex targetAngle rest with _ | i0
      · cases j with
        | zero => simpa using ha
        | succ j0 =>
          have := ih hr j0 (by simpa using hj)
          simpa using this
      · rw [hr] at h; simp at h

theorem findClosestAux_spec (targetAngle : ℚ) :
    ∀ (rest base : List ℚ) (ci : ℕ) (md : ℚ),
      ci < base.length →
      md = |base.getD ci 0 - targetAngle| →
      (∀ j, j < base.length → md ≤ |base.getD j 0 - targetAngle|) →
      (∀ j, j < ci → md < |base.getD j 0 - targetAngle|) →
      findClosestAux targetAngle rest base.length md ci < (base ++ rest).length ∧
        (∀ j, j < (base ++ rest).length →
          |(base ++ rest).getD (findClosestAux targetAngle rest base.length md ci) 0 - targetAngle| ≤
            |(base ++ rest).getD j 0 - targetAngle|) ∧
        (∀ j, j < findClosestAux targetAngle rest base.length md ci →
          |(base ++ rest).getD (findClosestAux targetAngle rest base.length md ci) 0 - targetAngle| <
            |(base ++ rest).getD j 0 - targetAngle|) := by
  intro rest
  induction rest with
  | nil =>
    intro base ci md hci hmd hmin hstrict
    simp only [List.append_nil, findClosestAux, List.length_append, List.length_nil, Nat.add_zero]
    refine ⟨hci, ?_, ?_⟩
    · intro j hj
      have := hmin j hj
      rw [← hmd]
      exact this
    · intro j hj
      have := hstrict j hj
      rw [← hmd]
      exact this
  | cons a rs ih =>
    intro base ci md hci hmd hmin hstrict
    have hsplit : base ++ a :: rs = (base ++ [a]) ++ rs := by
      simp [List.append_assoc]
    have hlen1 : (base ++ [a]).length = base.length + 1 := by simp
    have hgetA : (base ++ [a]).getD base.length 0 = a := by
      rw [List.getD_append_right _ _ _ _ (le_refl _)]
      simp
    have hgetBase : ∀ j, j < base.length → (base ++ [a]).getD j 0 = base.getD j 0 := by
      intro j hj
      exact List.getD_append _ _ _ _ hj
    unfold findClosestAux
    by_cases hd : |a - targetAngle| < md
    · rw [if_pos hd]
      have h1 : base.length < (base ++ [a]).length := by omega
      have h2 : |a - targetAngle| = |(base ++ [a]).getD base.length 0 - targetAngle| := by
        rw [hgetA]
      have h3 : ∀ j, j < (base ++ [a]).length →
          |a - targetAngle| ≤ |(base ++ [a]).getD j 0 - targetAngle| := by
        intro j hj
        rcases Nat.lt_or_ge j base.length with hlt | hge
        · rw [hgetBase j hlt]
          exact le_of_lt (lt_of_lt_of_le hd (hmin j hlt))
        · have : j = base.length := by omega
          rw [this, hgetA]
      have h4 : ∀ j, j < base.length →
          |a - targetAngle| < |(base ++ [a]).getD j 0 - targetAngle| := by
        intro j hj
        rw [hgetBase j hj]
        exact lt_of_lt_of_le hd (hmin j hj)
      have := ih (base ++ [a]) base.length |a - targetAngle| h1 h2 h3 h4
      rw [hlen1] at this
      rw [hsplit]
      exact this
    · rw [if_neg hd]
      have h1 : ci < (base ++ [a]).length := by omega
      have h2 : md = |(base ++ [a]).getD ci 0 - targetAngle| := by
        rw [hgetBase ci hci]
        exact hmd
      have h3 : ∀ j, j < (base ++ [a]).length →
          md ≤ |(base ++ [a]).getD j 0 - targetAngle| := by
        intro j hj
        rcases Nat.lt_or_ge j base.length with hlt | hge
        · rw [hgetBase j hlt]
          exact hmin j hlt
        · have : j = base.length := by omega
          rw [this, hgetA]
          exact le_of_not_lt hd
      have h4 : ∀ j, j < ci →
          md < |(base ++ [a]).getD j 0 - targetAngle| := by
        intro j hj
        rw [hgetBase j (by omega)]
        exact hstrict j hj
      have := ih (base ++ [a]) ci md h1 h2 h3 h4
      rw [hlen1] at this
      rw [hsplit]
      exact this

/-- C7 (confirmed): on a non-empty angle array the matcher returns the
first index within the 1e-6 exact-match tolerance when one exists, and
otherwise the earliest index achieving the minimum absolute difference
(ties broken by earliest index); in particular
`closestIndex([0,30,60,90], 29) = 1`,
`closestIndex([0,30,60,90], 30.0000001) = 1` with index 1 inside the
exact-match tolerance, and `closestIndex([0,30,60,90], 45) = 1`. -/
theorem findClosestAngleIndex_spec (angles : List ℚ) (targetAngle : ℚ) (hne : angles ≠ []) :
    findClosestAngleIndex angles targetAngle < angles.length ∧
    ((∃ i, i < angles.length ∧ |angles.getD i 0 - targetAngle| < 1 / 1000000) →
      |angles.getD (findClosestAngleIndex angles targetAngle) 0 - targetAngle| < 1 / 1000000 ∧
        ∀ j, j < findClosestAngleIndex angles targetAngle →
          ¬(|angles.getD j 0 - targetAngle| < 1 / 1000000)) ∧
    ((¬∃ i, i < angles.length ∧ |angles.getD i 0 - targetAngle| < 1 / 1000000) →
      (∀ j, j < angles.length →
        |angles.getD (findClosestAngleIndex angles targetAngle) 0 - targetAngle| ≤
          |angles.getD j 0 - targetAngle|) ∧
      ∀ j, j < findClosestAngleIndex angles targetAngle →
        |angles.getD (findClosestAngleIndex angles targetAngle) 0 - targetAngle| <
          |angles.getD j 0 - targetAngle|) ∧
    findClosestAngleIndex [0, 30, 60, 90] 29 = 1 ∧
    findClosestAngleIndex [0, 30, 60, 90] (300000001 / 10000000) = 1 ∧
    |(30 : ℚ) - 300000001 / 10000000| < 1 / 1000000 ∧
    findClosestAngleIndex [0, 30, 60, 90] 45 = 1 := by
  cases angles with
  | nil => exact absurd rfl hne
  | cons a0 rest =>
    rcases he : findExactMatchIndex targetAngle (a0 :: rest) with _ | idx
    · have hdef : findClosestAngleIndex (a0 :: rest) targetAngle =
          findClosestAux targetAngle rest 1 |a0 - targetAngle| 0 := by
        show (match findExactMatchIndex targetAngle (a0 :: rest) with
          | some exactIndex => exactIndex
          | none => findClosestAux targetAngle rest 1 |a0 - targetAngle| 0) =
            findClosestAux targetAngle rest 1 |a0 - targetAngle| 0
        rw [he]
      have hnone := findExactMatchIndex_none targetAngle (a0 :: rest) he
      have h2 : |a0 - targetAngle| = |([a0] : List ℚ).getD 0 0 - targetAngle| := by simp
      have h3 : ∀ j, j < ([a0] : List ℚ).length →
          |a0 - targetAngle| ≤ |([a0] : List ℚ).getD j 0 - targetAngle| := by
        intro j hj
        have hj0 : j = 0 := by simpa using hj
        subst hj0
        simp
      have h4 : ∀ j, j < 0 → |a0 - targetAngle| < |([a0] : List ℚ).getD j 0 - targetAngle| := by
        intro j hj
        omega
      have hspec := findClosestAux_spec targetAngle rest [a0] 0 |a0 - targetAngle|
        (by simp) h2 h3 h4
      simp only [List.singleton_append, List.length_singleton] at hspec
      refine ⟨?_, ?_, ?_, by decide, by decide, by decide, by decide⟩
      · rw [hdef]
        exact hspec.1
      · rintro ⟨i, hi, hPi⟩
        exact absurd hPi (hnone i hi)
      · intro hno
        rw [hdef]
        exact ⟨hspec.2.1, hspec.2.2⟩
    · have hdef : findClosestAngleIndex (a0 :: rest) targetAngle = idx := by
        show (match findExactMatchIndex targetAngle (a0 :: rest) with
          | some exactIndex => exactIndex
          | none => findClosestAux targetAngle rest 1 |a0 - targetAngle| 0) = idx
        rw [he]
      obtain ⟨h1, h2, h3⟩ := findExactMatchIndex_some targetAngle (a0 :: rest) idx he
      refine ⟨?_, ?_, ?_, by decide, by decide, by decide, by decide⟩
      · rw [hdef]
        exact h1
      · intro _
        rw [hdef]
        exact ⟨h2, h3⟩
      · intro hno
        exact absurd ⟨idx, h1, h2⟩ hno

/-- C7 (witness): the specification applied to the concrete array
`[0, 30, 60, 90]` and target 29. -/
theorem findClosestAngleIndex_spec_witness :
    findClosestAngleIndex [0, 30, 60, 90] 29 < ([0, 30, 60, 90] : List ℚ).length :=
  (findClosestAngleIndex_spec [0, 30, 60, 90] 29 (by decide)).1

/-! ### C3 — wavelength sampling positions -/

theorem stepIndices_mem (len step i : ℕ) :
    i ∈ stepIndices len step ↔ (∃ j, i = j * step) ∧ i < len := by
  unfold stepIndices
  rw [List.mem_filter, List.mem_range]
  constructor
  · rintro ⟨hi, hmod⟩
    have hmod2 : i % step = 0 := of_decide_eq_true hmod
    refine ⟨⟨i / step, ?_⟩, hi⟩
    rw [Nat.div_mul_cancel (Nat.dvd_of_mod_eq_zero hmod2)]
  · rintro ⟨⟨j, rfl⟩, hi⟩
    exact ⟨hi, decide_eq_true (Nat.mul_mod_left j step)⟩

theorem stepIndices_sorted (len step : ℕ) :
    List.Pairwise (· < ·) (stepIndices len step) :=
  List.Pairwise.sublist (List.filter_sublist _) (List.pairwise_lt_range len)

/-- C3 (counterexample): for the 12-wavelength library and
`maxPoints = 4` the sampled wavelength positions are `[0, 3, 6, 9]` and
not `[0, 3, 6, 9, 11]` — the stepped count already reaches `maxPoints`,
so the final wavelength is not appended. -/
theorem sampleData_positions_cex :
    (sampleData library12 4).wavelength = [0, 3, 6, 9] ∧
      (sampleData library12 4).wavelength ≠ [0, 3, 6, 9, 11] := by decide

/-- C3 (amended): sampling computes
`step = max(1, floor(wavelengthCount / maxPoints))`, retains exactly the
wavelengths at the multiples of `step` below the original count, in
increasing order, and appends the final original wavelength exactly when
the resulting count is below `maxPoints` and the source is non-empty; in
particular, for a 12-wavelength library with `maxPoints = 4` the
retained wavelength positions are `[0, 3, 6, 9]` (the stepped count
already equals `maxPoints`, so nothing is appended). -/
theorem sampleData_wavelength_spec (w inc emi daz : List ℚ) (std nc nh : List (List ℚ))
    (mp : ℕ) (hmp : 0 < mp) :
    (sampleData ⟨w, inc, emi, daz, std, nc, nh⟩ mp).wavelength
        = stepSample (sampleStep w.length mp) w
          ++ (if (stepSample (sampleStep w.length mp) w).length < mp ∧ 0 < w.length
              then [w.getD (w.length - 1) 0] else []) ∧
    stepSample (sampleStep w.length mp) w
        = (stepIndices w.length (sampleStep w.length mp)).map (fun i => w.getD i 0) ∧
    sampleStep w.length mp = max 1 (w.length / mp) ∧
    (∀ i, i ∈ stepIndices w.length (sampleStep w.length mp)
        ↔ (∃ j, i = j * sampleStep w.length mp) ∧ i < w.length) ∧
    List.Pairwise (· < ·) (stepIndices w.length (sampleStep w.length mp)) ∧
    (sampleData library12 4).wavelength = [0, 3, 6, 9] := by
  refine ⟨?_, rfl, rfl, fun i => stepIndices_mem _ _ i, stepIndices_sorted _ _, by decide⟩
  have hdef : (sampleData ⟨w, inc, emi, daz, std, nc, nh⟩ mp).wavelength
      = (if (stepSample (sampleStep w.length mp) w).length < mp ∧ 0 < w.length
         then stepSample (sampleStep w.length mp) w ++ [w.getD (w.length - 1) 0]
         else stepSample (sampleStep w.length mp) w) := rfl
  rw [hdef]
  by_cases hc : (stepSample (sampleStep w.length mp) w).length < mp ∧ 0 < w.length
  · rw [if_pos hc, if_pos hc]
  · rw [if_neg hc, if_neg hc, List.append_nil]

/-- C3 (witness): the wavelength specification applied to the concrete
12-wavelength library with `maxPoints = 4`. -/
theorem sampleData_wavelength_spec_witness :
    (sampleData library12 4).wavelength = [0, 3, 6, 9] :=
  (sampleData_wavelength_spec [0, 1, 2, 3, 4, 5, 6, 7, 8, 9, 10, 11] [] [] [] [] [] []
    4 (by decide)).2.2.2.2.2

/-! ### C2 — index alignment of wavelength axis and case-table rows -/

/-- C2 (counterexample): on a 3-wavelength library with one aligned
standard row and `maxPoints = 4`, sampling leaves the row with 3 entries
but makes the wavelength axis 4 entries long (the final wavelength is
appended to the wavelength axis only), so axis and rows do not have the
same length. -/
theorem sampleData_alignment_cex :
    (sampleData shortLibrary 4).wavelength.length = 4 ∧
      ((sampleData shortLibrary 4).standard.getD 0 []).length = 3 := by decide

/-- C2 (amended): sampling applies the same step to the wavelength axis
and to every row of every case table, so when all rows are as long as the
original wavelength axis, every sampled row of every case table is the
row restricted to the identical retained index subset and has length
equal to the retained-index count; the sampled wavelength axis has that
same length, except that when the retained count is below `maxPoints`
and the source is non-empty the axis carries one extra appended element
(the duplicated final original wavelength) and is one entry longer than
every row. -/
theorem sampleData_alignment (d : SpectralData) (mp : ℕ) (hmp : 0 < mp)
    (hstd : ∀ r ∈ d.standard, r.length = d.wavelength.length)
    (hch4 : ∀ r ∈ d.no_ch4, r.length = d.wavelength.length)
    (hhaze : ∀ r ∈ d.no_haze, r.length = d.wavelength.length) :
    (sampleData d mp).standard = d.standard.map
        (fun r => (stepIndices d.wavelength.length (sampleStep d.wavelength.length mp)).map
          (fun i => r.getD i 0)) ∧
    (sampleData d mp).no_ch4 = d.no_ch4.map
        (fun r => (stepIndices d.wavelength.length (sampleStep d.wavelength.length mp)).map
          (fun i => r.getD i 0)) ∧
    (sampleData d mp).no_haze = d.no_haze.map
        (fun r => (stepIndices d.wavelength.length (sampleStep d.wavelength.length mp)).map
          (fun i => r.getD i 0)) ∧
    (∀ r2 ∈ (sampleData d mp).standard,
      r2.length = (stepIndices d.wavelength.length (sampleStep d.wavelength.length mp)).length) ∧
    (∀ r2 ∈ (sampleData d mp).no_ch4,
      r2.length = (stepIndices d.wavelength.length (sampleStep d.wavelength.length mp)).length) ∧
    (∀ r2 ∈ (sampleData d mp).no_haze,
      r2.length = (stepIndices d.wavelength.length (sampleStep d.wavelength.length mp)).length) ∧
    (sampleData d mp).wavelength.length
        = (stepIndices d.wavelength.length (sampleStep d.wavelength.length mp)).length
          + (if (stepIndices d.wavelength.length (sampleStep d.wavelength.length mp)).length < mp
                ∧ 0 < d.wavelength.length then 1 else 0) := by
  have hrow : ∀ (t : List (List ℚ)), (∀ r ∈ t, r.length = d.wavelength.length) →
      t.map (stepSample (sampleStep d.wavelength.length mp))
        = t.map (fun r => (stepIndices d.wavelength.length (sampleStep d.wavelength.length mp)).map
            (fun i => r.getD i 0)) := by
    intro t ht
    apply List.map_congr_left
    intro r hr
    unfold stepSample
    rw [ht r hr]
  have hlen : ∀ (t : List (List ℚ)), (∀ r ∈ t, r.length = d.wavelength.length) →
      ∀ r2 ∈ t.map (stepSample (sampleStep d.wavelength.length mp)),
        r2.length = (stepIndices d.wavelength.length (sampleStep d.wavelength.length mp)).length := by
    intro t ht r2 hr2
    rw [hrow t ht] at hr2
    rw [List.mem_map] at hr2
    obtain ⟨r, hr, rfl⟩ := hr2
    exact List.length_map _ _
  have hsdef : (sampleData d mp).standard
      = d.standard.map (stepSample (sampleStep d.wavelength.length mp)) := rfl
  have hcdef : (sampleData d mp).no_ch4
      = d.no_ch4.map (stepSample (sampleStep d.wavelength.length mp)) := rfl
  have hhdef : (sampleData d mp).no_haze
      = d.no_haze.map (stepSample (sampleStep d.wavelength.length mp)) := rfl
  refine ⟨?_, ?_, ?_, ?_, ?_, ?_, ?_⟩
  · rw [hsdef, hrow d.standard hstd]
  · rw [hcdef, hrow d.no_ch4 hch4]
  · rw [hhdef, hrow d.no_haze hhaze]
  · rw [hsdef]; exact hlen d.standard hstd
  · rw [hcdef]; exact hlen d.no_ch4 hch4
  · rw [hhdef]; exact hlen d.no_haze hhaze
  · have hwdef : (sampleData d mp).wavelength
        = (if (stepSample (sampleStep d.wavelength.length mp) d.wavelength).length < mp
              ∧ 0 < d.wavelength.length
           then stepSample (sampleStep d.wavelength.length mp) d.wavelength
              ++ [d.wavelength.getD (d.wavelength.length - 1) 0]
           else stepSample (sampleStep d.wavelength.length mp) d.wavelength) := rfl
    have hsw : (stepSample (sampleStep d.wavelength.length mp) d.wavelength).length
        = (stepIndices d.wavelength.length (sampleStep d.wavelength.length mp)).length :=
      List.length_map _ _
    rw [hwdef]
    by_cases hc : (stepSample (sampleStep d.wavelength.length mp) d.wavelength).length < mp
        ∧ 0 < d.wavelength.length
    · rw [if_pos hc, if_pos (by rw [← hsw]; exact hc)]
      simp [hsw]
    · rw [if_neg hc, if_neg (by rw [← hsw]; exact hc)]
      simp [hsw]

/-- C2 (witness): the alignment specification applied to a concrete
2-wavelength library with one aligned standard row and `maxPoints = 4`. -/
theorem sampleData_alignment_witness :
    (sampleData alignedLibrary 4).standard = alignedLibrary.standard.map
        (fun r => (stepIndices alignedLibrary.wavelength.length
            (sampleStep alignedLibrary.wavelength.length 4)).map
          (fun i => r.getD i 0)) :=
  (sampleData_alignment alignedLibrary 4 (by decide) (by decide) (by decide) (by decide)).1

/-! ### C8 — case selection -/

/-- C8 (confirmed): for each of the three case names, `selectCase`
returns the requested row of the matching table, and when that row is
absent in that specific table (row index at or past the length of the table)
it returns the empty sequence rather than an error. -/
theorem selectCase_spec (s n h : List (List ℚ)) (row : ℕ) (c : String)
    (hc : c = "standard" ∨ c = "no_ch4" ∨ c = "no_haze") :
    selectCase s n h c row
        = (if c = "standard" then s else if c = "no_ch4" then n else h).getD row [] ∧
      ((if c = "standard" then s else if c = "no_ch4" then n else h).length ≤ row →
        selectCase s n h c row = []) := by
  rcases hc with rfl | rfl | rfl <;>
    refine ⟨by simp [selectCase], ?_⟩ <;>
    intro hr <;>
    simp only [selectCase] <;>
    simp at hr ⊢ <;>
    rw [List.getElem?_eq_none hr] <;>
    rfl

/-- C8 (witness): the case-selection specification applied at concrete
tables, case name and an out-of-range row. -/
theorem selectCase_spec_witness :
    selectCase [[1]] [[2]] [[3]] "no_haze" 7 = [] :=
  (selectCase_spec [[1]] [[2]] [[3]] 7 "no_haze" (Or.inr (Or.inr rfl))).2 (by decide)

/-! ### C4 — flat row index and out-of-range handling -/

theorem plotRows_nil : ∀ (l : List ℚ) (i : ℕ),
    plotRows [] l i = l.map (fun w => (w, 0)) := by
  intro l
  induction l with
  | nil => intro i; rfl
  | cons w ws ih =>
    intro i
    simp only [plotRows, List.map_cons]
    rw [ih (i + 1)]
    rfl

/-- C4 (counterexample): with the example angle grids and targets
(60, 30, 210) the computed flat row index is 115, which is at or past
the single-row standard table, yet `createSpectralPlotData` returns a
normal plot (with intensity 0) instead of failing with a range error. -/
theorem createSpectralPlotData_cex :
    angleIndexOf spectralPlotExample 60 30 210 = 115 ∧
      spectralPlotExample.standard.length = 1 ∧
      createSpectralPlotData spectralPlotExample 60 30 210 "standard" = [(1, 0)] := by decide

/-- C4 (amended): the resolver runs the angle matcher three times and
combines the results as
`incIdx * (len(emi) * len(daz)) + emiIdx * len(daz) + dazIdx` — 115 for
the worked example with `inc = emi = [0,30,60,90]`,
`daz = [0,30,…,330]` and targets (60, 30, 210) — but when the computed
row is at or past the row count of the selected table the plot is built from
an empty spectral row (every intensity 0) rather than failing with a
range error. -/
theorem createSpectralPlotData_row_spec (pd : SpectralData) (ia ea aa : ℚ) (c : String)
    (hc : c = "standard" ∨ c = "no_ch4" ∨ c = "no_haze")
    (hrow : (if c = "standard" then pd.standard
             else if c = "no_ch4" then pd.no_ch4 else pd.no_haze).length
        ≤ angleIndexOf pd ia ea aa) :
    angleIndexOf pd ia ea aa
        = findClosestAngleIndex pd.inc ia * (pd.emi.length * pd.daz.length)
          + findClosestAngleIndex pd.emi ea * pd.daz.length
          + findClosestAngleIndex pd.daz aa ∧
    angleIndexOf spectralPlotExample 60 30 210 = 115 ∧
    createSpectralPlotData pd ia ea aa c = pd.wavelength.map (fun w => (w, 0)) := by
  refine ⟨rfl, by decide, ?_⟩
  have hsel : selectCase pd.standard pd.no_ch4 pd.no_haze c (angleIndexOf pd ia ea aa) = [] := by
    rcases hc with rfl | rfl | rfl <;>
      simp only [selectCase] <;>
      simp at hrow ⊢ <;>
      rw [List.getElem?_eq_none hrow] <;>
      rfl
  have hdef : createSpectralPlotData pd ia ea aa c
      = plotRows (selectCase pd.standard pd.no_ch4 pd.no_haze c (angleIndexOf pd ia ea aa))
          pd.wavelength 0 := rfl
  rw [hdef, hsel, plotRows_nil]

/-- C4 (witness): the resolver specification applied at the concrete
example library with the `no_ch4` case, whose table is empty. -/
theorem createSpectralPlotData_row_spec_witness :
    createSpectralPlotData spectralPlotExample 60 30 210 "no_ch4"
        = spectralPlotExample.wavelength.map (fun w => (w, 0)) :=
  (createSpectralPlotData_row_spec spectralPlotExample 60 30 210 "no_ch4"
    (Or.inr (Or.inl rfl)) (by decide)).2.2

/-! ### C5 — geometry extraction bands and per-field failure -/

theorem geoIndex_nonneg (x y band : ℚ) : 0 ≤ geoIndex x y band := by
  simp only [geoIndex]
  have hx : (0 : ℤ) ≤ max 0 (min ⌊x⌋ 680) := le_max_left _ _
  have hy : (0 : ℤ) ≤ max 0 (min ⌊y⌋ 680) := le_max_left _ _
  have hb : (0 : ℤ) ≤ max 0 (min ⌊band⌋ 8) := le_max_left _ _
  have h1 : (0 : ℤ) ≤ max 0 (min ⌊band⌋ 8) * (681 * 681) := by positivity
  have h2 : (0 : ℤ) ≤ max 0 (min ⌊y⌋ 680) * 681 := by positivity
  linarith

theorem geoIndex_mono_band (x y b1 b2 : ℚ) (h : ⌊b1⌋ ≤ ⌊b2⌋) :
    geoIndex x y b1 ≤ geoIndex x y b2 := by
  simp only [geoIndex]
  have hb : max 0 (min ⌊b1⌋ 8) ≤ max 0 (min ⌊b2⌋ 8) :=
    max_le_max (le_refl 0) (min_le_min h (le_refl 8))
  have := mul_le_mul_of_nonneg_right hb (by norm_num : (0 : ℤ) ≤ 681 * 681)
  linarith

theorem getGeoValue_isSome (g : GeoCubeData) (x y band : ℚ)
    (hlt : geoIndex x y band < (g.size : ℤ)) :
    (getGeoValue g x y band).isSome = true := by
  simp only [getGeoValue]
  rw [if_neg]
  · rfl
  · push_neg
    exact ⟨geoIndex_nonneg x y band, hlt⟩

/-- C5 (counterexample): two full-size geo cubes that differ exactly at
the band-7 (azimuth) cell of pixel (0, 0) produce identical
`extractGeoValues` results, while a band-7 lookup distinguishes them —
so the azimuth band is not extracted or packaged at all, contradicting
the claimed band set {0, 1, 4, 5, 6, 7}. -/
theorem extractGeoValues_band7_cex :
    extractGeoValues fullCube 0 0 = extractGeoValues band7Cube 0 0 ∧
      getGeoValue band7Cube 0 0 7 ≠ getGeoValue fullCube 0 0 7 := by decide

/-- C5 (amended): `extractGeoValues` looks up bands {0, 1, 4, 5, 6}
(latitude, longitude, phase, incidence, emission) — azimuth (band 7) is
not extracted — and packages the five results; each field carries its
own lookup result, so when the emission (band 6) lookup is out of range
while the incidence (band 5) lookup is in range, only `emis` is absent
and the other four fields are populated. -/
theorem extractGeoValues_spec (g : GeoCubeData) (x y : ℚ)
    (h5 : geoIndex x y 5 < (g.size : ℤ)) (h6 : (g.size : ℤ) ≤ geoIndex x y 6) :
    (extractGeoValues g x y).lat = getGeoValue g x y 0 ∧
    (extractGeoValues g x y).lon = getGeoValue g x y 1 ∧
    (extractGeoValues g x y).phase = getGeoValue g x y 4 ∧
    (extractGeoValues g x y).incidence = getGeoValue g x y 5 ∧
    (extractGeoValues g x y).emis = getGeoValue g x y 6 ∧
    (extractGeoValues g x y).emis = none ∧
    (extractGeoValues g x y).lat.isSome = true ∧
    (extractGeoValues g x y).lon.isSome = true ∧
    (extractGeoValues g x y).phase.isSome = true ∧
    (extractGeoValues g x y).incidence.isSome = true := by
  have h0 : geoIndex x y 0 < (g.size : ℤ) :=
    lt_of_le_of_lt (geoIndex_mono_band x y 0 5 (by decide)) h5
  have h1 : geoIndex x y 1 < (g.size : ℤ) :=
    lt_of_le_of_lt (geoIndex_mono_band x y 1 5 (by decide)) h5
  have h4 : geoIndex x y 4 < (g.size : ℤ) :=
    lt_of_le_of_lt (geoIndex_mono_band x y 4 5 (by decide)) h5
  have hemis : getGeoValue g x y 6 = none := by
    simp only [getGeoValue]
    rw [if_pos (Or.inr h6)]
  exact ⟨rfl, rfl, rfl, rfl, rfl, hemis,
    getGeoValue_isSome g x y 0 h0, getGeoValue_isSome g x y 1 h1,
    getGeoValue_isSome g x y 4 h4, getGeoValue_isSome g x y 5 h5⟩

/-- C5 (witness): the extraction specification applied to the concrete
cube truncated at the band-6 cell of pixel (0, 0). -/
theorem extractGeoValues_spec_witness :
    (extractGeoValues truncatedCube 0 0).emis = none ∧
      (extractGeoValues truncatedCube 0 0).incidence.isSome = true :=
  ⟨(extractGeoValues_spec truncatedCube 0 0 (by decide) (by decide)).2.2.2.2.2.1,
   (extractGeoValues_spec truncatedCube 0 0 (by decide) (by decide)).2.2.2.2.2.2.2.2.2⟩

/-! ### C9 — click-to-native coordinate mapping -/

theorem clampToDim (r : ℤ) (n : ℕ) (hn : 0 < n) :
    0 ≤ max 0 (min r ((n : ℤ) - 1)) ∧ max 0 (min r ((n : ℤ) - 1)) ≤ (n : ℤ) - 1 := by
  constructor
  · exact le_max_left _ _
  · apply max_le
    · omega
    · exact min_le_right _ _

/-- C9 (confirmed): for every click whose position relative to the image
is strictly inside `[0, offsetWidth] × [0, offsetHeight]`, whenever the
handler produces a marker, its native coordinate is the per-axis
scale-round-clamp of the relative position and always lies in
`[0, naturalWidth - 1] × [0, naturalHeight - 1]`. -/
theorem handleImageClick_maps_click (nW nH oW oH : ℕ) (cp : Option Marker)
    (clientX clientY rectLeft rectTop imgRectLeft imgRectTop : ℚ)
    (hnW : 0 < nW) (hnH : 0 < nH)
    (hx0 : 0 < clientX - imgRectLeft) (hx1 : clientX - imgRectLeft < (oW : ℚ))
    (hy0 : 0 < clientY - imgRectTop) (hy1 : clientY - imgRectTop < (oH : ℚ)) :
    ∀ m, handleImageClick nW nH oW oH cp clientX clientY rectLeft rectTop imgRectLeft
        imgRectTop = some m →
      m.naturalX
          = max 0 (min (round ((clientX - imgRectLeft) * ((nW : ℚ) / (oW : ℚ)))) ((nW : ℤ) - 1)) ∧
      m.naturalY
          = max 0 (min (round ((clientY - imgRectTop) * ((nH : ℚ) / (oH : ℚ)))) ((nH : ℤ) - 1)) ∧
      0 ≤ m.naturalX ∧ m.naturalX ≤ (nW : ℤ) - 1 ∧
      0 ≤ m.naturalY ∧ m.naturalY ≤ (nH : ℤ) - 1 := by
  intro m hm
  have hrx : clientX - rectLeft - (imgRectLeft - rectLeft) = clientX - imgRectLeft := by ring
  have hry : clientY - rectTop - (imgRectTop - rectTop) = clientY - imgRectTop := by ring
  simp only [handleImageClick] at hm
  rw [hrx, hry] at hm
  rw [if_pos ⟨le_of_lt hx0, le_of_lt hx1, le_of_lt hy0, le_of_lt hy1⟩] at hm
  by_cases ht : isToggleClick cp (clientX - imgRectLeft) (clientY - imgRectTop) = true
  · rw [if_pos ht] at hm
    cases hm
  · rw [if_neg ht] at hm
    cases hm
    exact ⟨rfl, rfl, (clampToDim _ nW hnW).1, (clampToDim _ nW hnW).2,
      (clampToDim _ nH hnH).1, (clampToDim _ nH hnH).2⟩

/-- C9 (witness): the mapping specification applied to a concrete
half-scale 681-pixel image and an interior click. -/
theorem handleImageClick_maps_click_witness :
    (0 : ℤ) ≤ (Marker.mk 50 50 341 341).naturalX ∧
      (Marker.mk 50 50 341 341).naturalX ≤ (681 : ℕ) - 1 :=
  ⟨(handleImageClick_maps_click 681 681 100 100 none 50 50 0 0 0 0 (by decide) (by decide)
      (by decide) (by decide) (by decide) (by decide) ⟨50, 50, 341, 341⟩ (by decide)).2.2.1,
   (handleImageClick_maps_click 681 681 100 100 none 50 50 0 0 0 0 (by decide) (by decide)
      (by decide) (by decide) (by decide) (by decide) ⟨50, 50, 341, 341⟩ (by decide)).2.2.2.1⟩

/-! ### C10 — marker toggle cycle -/

/-- C10 (confirmed): when a marker exists and a new in-bounds click lies
within 10 display pixels of it on both axes, the handler clears the
marker; consequently, starting with no marker, a click creates a marker,
a second click at the same position clears it, and a third click
recreates it — the toggle is a 2-cycle. -/
theorem handleImageClick_toggle_spec (nW nH oW oH : ℕ) (pos : Marker)
    (clientX clientY rectLeft rectTop imgRectLeft imgRectTop : ℚ)
    (hx0 : 0 ≤ clientX - imgRectLeft) (hx1 : clientX - imgRectLeft ≤ (oW : ℚ))
    (hy0 : 0 ≤ clientY - imgRectTop) (hy1 : clientY - imgRectTop ≤ (oH : ℚ))
    (hdx : |pos.displayX - (clientX - imgRectLeft)| < 10)
    (hdy : |pos.displayY - (clientY - imgRectTop)| < 10) :
    handleImageClick nW nH oW oH (some pos) clientX clientY rectLeft rectTop imgRectLeft
        imgRectTop = none ∧
    (handleImageClick nW nH oW oH none clientX clientY rectLeft rectTop imgRectLeft
        imgRectTop).isSome = true ∧
    handleImageClick nW nH oW oH
        (handleImageClick nW nH oW oH none clientX clientY rectLeft rectTop imgRectLeft
          imgRectTop)
        clientX clientY rectLeft rectTop imgRectLeft imgRectTop = none ∧
    handleImageClick nW nH oW oH
        (handleImageClick nW nH oW oH
          (handleImageClick nW nH oW oH none clientX clientY rectLeft rectTop imgRectLeft
            imgRectTop)
          clientX clientY rectLeft rectTop imgRectLeft imgRectTop)
        clientX clientY rectLeft rectTop imgRectLeft imgRectTop
      = handleImageClick nW nH oW oH none clientX clientY rectLeft rectTop imgRectLeft
          imgRectTop := by
  have hrx : clientX - rectLeft - (imgRectLeft - rectLeft) = clientX - imgRectLeft := by ring
  have hry : clientY - rectTop - (imgRectTop - rectTop) = clientY - imgRectTop := by ring
  have hin : (0 : ℚ) ≤ clientX - imgRectLeft ∧ clientX - imgRectLeft ≤ (oW : ℚ) ∧
      (0 : ℚ) ≤ clientY - imgRectTop ∧ clientY - imgRectTop ≤ (oH : ℚ) :=
    ⟨hx0, hx1, hy0, hy1⟩
  have hclear : ∀ q : Marker, |q.displayX - (clientX - imgRectLeft)| < 10 →
      |q.displayY - (clientY - imgRectTop)| < 10 →
      handleImageClick nW nH oW oH (some q) clientX clientY rectLeft rectTop imgRectLeft
        imgRectTop = none := by
    intro q hqx hqy
    simp only [handleImageClick]
    rw [hrx, hry, if_pos hin, if_pos]
    simp only [isToggleClick, Bool.and_eq_true, decide_eq_true_eq]
    exact ⟨hqx, hqy⟩
  have hs1 : handleImageClick nW nH oW oH none clientX clientY rectLeft rectTop imgRectLeft
      imgRectTop
      = some ⟨clientX - imgRectLeft, clientY - imgRectTop,
          max 0 (min (round ((clientX - imgRectLeft) * ((nW : ℚ) / (oW : ℚ)))) ((nW : ℤ) - 1)),
          max 0 (min (round ((clientY - imgRectTop) * ((nH : ℚ) / (oH : ℚ)))) ((nH : ℤ) - 1))⟩ := by
    simp only [handleImageClick]
    rw [hrx, hry, if_pos hin, if_neg]
    simp only [isToggleClick, Bool.false_eq_true, not_false_eq_true]
  have hzero : ∀ a : ℚ, |a - a| < 10 := by
    intro a
    rw [sub_self, abs_zero]
    norm_num
  have hs2 : handleImageClick nW nH oW oH
      (some ⟨clientX - imgRectLeft, clientY - imgRectTop,
        max 0 (min (round ((clientX - imgRectLeft) * ((nW : ℚ) / (oW : ℚ)))) ((nW : ℤ) - 1)),
        max 0 (min (round ((clientY - imgRectTop) * ((nH : ℚ) / (oH : ℚ)))) ((nH : ℤ) - 1))⟩)
      clientX clientY rectLeft rectTop imgRectLeft imgRectTop = none :=
    hclear _ (hzero (clientX - imgRectLeft)) (hzero (clientY - imgRectTop))
  refine ⟨hclear pos hdx hdy, ?_, ?_, ?_⟩
  · rw [hs1]
    rfl
  · rw [hs1]
    exact hs2
  · rw [hs1, hs2, hs1]

/-- C10 (witness): the toggle specification applied at a concrete
existing marker and a repeat click at the same position. -/
theorem handleImageClick_toggle_spec_witness :
    handleImageClick 681 681 100 100 (some ⟨50, 50, 341, 341⟩) 50 50 0 0 0 0 = none :=
  (handleImageClick_toggle_spec 681 681 100 100 ⟨50, 50, 341, 341⟩ 50 50 0 0 0 0
    (by decide) (by decide) (by decide) (by decide) (by decide) (by decide)).1
